import Mathlib

/-!
Shallow embedding of the reconciliation / fuzzy-match engine of the
yifangda-ai-assistant repository, together with theorems settling the
frozen claims about it.

Numeric cell values are modelled as rationals (the Python code uses
floats, but every operation the claims mention is exact decimal
arithmetic on parsed table cells).  Tables are grids of cell strings;
Python's substring operator `in` is modelled by infix containment on
the underlying character lists.
-/

set_option maxRecDepth 4000

attribute [local semireducible] Rat.add Rat.mul Rat.sub Rat.inv

namespace YFD

/-- `a == b` as a prefix test on character lists. -/
def prefixOfL : List Char → List Char → Bool
  | [], _ => true
  | _ :: _, [] => false
  | a :: as, b :: bs => a == b && prefixOfL as bs

/-- Contiguous-substring test on character lists. -/
def infixOfL : List Char → List Char → Bool
  | needle, [] => needle.isEmpty
  | needle, b :: bs => prefixOfL needle (b :: bs) || infixOfL needle bs

/-- Python's `needle in hay` substring test on strings. -/
def sContains (hay needle : String) : Bool :=
  infixOfL needle.data hay.data

/-- Drop leading and trailing whitespace from a character list
(Python `str.strip()`). -/
def trimWs (cs : List Char) : List Char :=
  ((cs.dropWhile Char.isWhitespace).reverse.dropWhile Char.isWhitespace).reverse

/-- Character class of the regex `[\d.]` used by
`DataValidator._parse_number`. -/
def numClass (c : Char) : Bool :=
  c.isDigit || c = '.'

/-- Value of a list of ASCII digit characters. -/
def natOfDigits (cs : List Char) : ℕ :=
  cs.foldl (fun a c => 10 * a + (c.toNat - 48)) 0

/-- `DataValidator._parse_number` (src/annual_report_ai/data_validator.py,
lines 262-294): the null-literal check on the raw string, removal of
commas and spaces plus strip, parenthesis/leading-minus negativity,
regex search for the first run of digits/dots, and Python `float` on
that run (at most one dot, at least one digit; otherwise the
ValueError is swallowed and None is returned). -/
def parseNumber (s : String) : Option ℚ :=
  if s = "" ∨ s = "None" ∨ s = "nan" ∨ s = "-" then none
  else
    let cs := trimWs ((s.data.filter (· ≠ ',')).filter (· ≠ ' '))
    let neg := cs.head? = some '-' ∨ cs.head? = some '('
    let cs2 := if neg then cs.filter (fun c => c ≠ '-' && c ≠ '(' && c ≠ ')') else cs
    let run := (cs2.dropWhile (fun c => !(numClass c))).takeWhile numClass
    if run = [] then none
    else if run.count '.' > 1 then none
    else if !(run.any Char.isDigit) then none
    else
      let ip := run.takeWhile (· ≠ '.')
      let fp := (run.dropWhile (· ≠ '.')).drop 1
      let v : ℚ := (natOfDigits ip : ℚ) + (natOfDigits fp : ℚ) / (10 ^ fp.length : ℚ)
      some (if neg then -v else v)

/-- `DataValidator._assess_severity` (data_validator.py, lines 296-317). -/
def assessSeverity (diff baseValue : ℚ) : String :=
  if baseValue = 0 then
    if diff > 100 then "High" else "Medium"
  else
    if |diff / baseValue| > 1/100 ∨ diff > 1000 then "High"
    else if |diff / baseValue| > 1/1000 ∨ diff > 100 then "Medium"
    else "Low"

/-- `DataValidator._extract_value` (data_validator.py, lines 181-207):
scan rows top-to-bottom; on a row whose first cell contains `item` as a
substring, try to parse columns 1..3; return the first parsed value.
When no column of the matching row parses, the Python loop falls
through and keeps scanning subsequent rows. -/
def rowParse (row : List String) : Option ℚ :=
  ((row.drop 1).take 3).findSome? parseNumber

def extractValue : List (List String) → String → Option ℚ
  | [], _ => none
  | row :: rest, item =>
    if sContains (row.headD "") item then
      match rowParse row with
      | some v => some v
      | none => extractValue rest item
    else extractValue rest item

/-- The same search expressed as: over all rows whose label contains
the item, take the first one that yields a parsable value. -/
def extractValueSpec (rows : List (List String)) (item : String) : Option ℚ :=
  (rows.filter (fun row => sContains (row.headD "") item)).findSome? rowParse

/-- A tabular dataset: a header row of column labels and a grid of
cell strings (the engine's view of a pandas DataFrame). -/
structure Table where
  cols : List String
  rows : List (List String)

/-- `DataValidator._extract_value_from_column` (data_validator.py,
lines 234-260): pick the first column whose header contains one of the
keywords; then return the parse of that column's cell in the first row
whose label contains the item (returning immediately even when the
parse fails). -/
def extractValueFromColumn (t : Table) (item : String) (keywords : List String) : Option ℚ :=
  if t.rows.isEmpty then none
  else
    match t.cols.findIdx? (fun c => keywords.any (fun k => sContains c k)) with
    | none => none
    | some ci =>
      match t.rows.find? (fun row => sContains (row.headD "") item) with
      | none => none
      | some row => parseNumber (row.getD ci "")

/-- An annual report as the validator sees it: named tables. -/
structure Report where
  tables : List (String × Table)

/-- `DataValidator._extract_last_year_value` (data_validator.py,
lines 209-220). -/
def extractLastYearValue (r : Report) (item : String) : Option ℚ :=
  r.tables.findSome? (fun nt =>
    if sContains nt.1 "资产负债表" || sContains nt.1 "利润表" then
      extractValueFromColumn nt.2 item ["上年", "上期"]
    else none)

/-- `DataValidator._extract_current_year_value` (data_validator.py,
lines 222-232). -/
def extractCurrentYearValue (r : Report) (item : String) : Option ℚ :=
  r.tables.findSome? (fun nt =>
    if sContains nt.1 "资产负债表" || sContains nt.1 "利润表" then
      extractValueFromColumn nt.2 item ["本期", "期末", "本年"]
    else none)

/-- One entry of the difference list built by
`DataValidator.validate_cross_year`. -/
structure CrossYearRecord where
  item : String
  currentReportLastYear : ℚ
  previousReport : ℚ
  difference : ℚ
  differenceRate : ℚ
  severity : String
deriving DecidableEq

/-- The record appended by `validate_cross_year` for one inconsistent
item (data_validator.py, lines 115-123). -/
def mkCrossYearRecord (item : String) (c p : ℚ) : CrossYearRecord :=
  { item := item, currentReportLastYear := c, previousReport := p,
    difference := |c - p|,
    differenceRate := if p ≠ 0 then |c - p| / p * 100 else 0,
    severity := "High" }

/-- `DataValidator.validate_cross_year` (data_validator.py, lines
77-130): for each item, extract the prior-year value from the current
report and the current-year value from the prior report; when both are
present and differ (exact comparison), append a High-severity record. -/
def validateCrossYear (cur prev : Report) : List String → List CrossYearRecord
  | [] => []
  | item :: rest =>
    match extractLastYearValue cur item, extractCurrentYearValue prev item with
    | some c, some p =>
      if c ≠ p then mkCrossYearRecord item c p :: validateCrossYear cur prev rest
      else validateCrossYear cur prev rest
    | _, _ => validateCrossYear cur prev rest

/-- One entry of the result list of
`FinancialReconciliation.validate_cross_year_consistency`. -/
structure ConsistencyResult where
  item : String
  currentYearComparable : ℚ
  previousYearCurrent : ℚ
  difference : ℚ
  is_pass : Bool
deriving DecidableEq

/-- The static item list of `validate_cross_year_consistency`
(financial_reconciliation.py, lines 462-473). -/
def crossYearItems : List (String × String × String) :=
  [("上年度可比区间资产总计", "期末资产总计", "资产总计"),
   ("上年度可比区间负债合计", "期末负债合计", "负债合计"),
   ("上年度可比区间净资产合计", "期末净资产合计", "净资产合计"),
   ("上期营业总收入", "本期营业总收入", "营业总收入"),
   ("上期综合收益总额", "本期综合收益总额", "综合收益总额"),
   ("上年度可比区间实收基金", "期末实收基金", "实收基金"),
   ("上年度可比区间未分配利润", "期末未分配利润", "未分配利润")]

/-- `FinancialReconciliation.validate_cross_year_consistency`
(financial_reconciliation.py, lines 445-494): for each configured item
pair present in both data dictionaries, emit a result whose pass flag
is `difference <= tolerance`. -/
def validateCrossYearConsistency (tol : ℚ) (cdata pdata : List (String × ℚ)) :
    List ConsistencyResult :=
  crossYearItems.filterMap (fun ckn =>
    match cdata.lookup ckn.1, pdata.lookup ckn.2.1 with
    | some c, some p =>
      some { item := ckn.2.2, currentYearComparable := c, previousYearCurrent := p,
             difference := |c - p|, is_pass := decide (|c - p| ≤ tol) }
    | _, _ => none)

/-- `ReconciliationRules.BALANCE_SHEET_RULES` (data_validator.py,
lines 532-543). -/
def BALANCE_SHEET_RULES : List (String × List String) :=
  [("资产总计", ["资产合计", "资产总额", "总资产"]),
   ("负债总计", ["负债合计", "负债总额", "总负债"]),
   ("净资产", ["所有者权益", "基金净资产", "净资产合计"]),
   ("流动资产", ["流动资产合计", "流动资产总计"]),
   ("非流动资产", ["非流动资产合计", "非流动资产总计"]),
   ("货币资金", ["银行存款", "现金", "货币资金合计"]),
   ("交易性金融资产", ["以公允价值计量且其变动计入当期损益的金融资产", "交易性金融资产合计"]),
   ("应收款项", ["应收账款", "应收票据", "应收款项合计"]),
   ("流动负债", ["流动负债合计", "流动负债总计"]),
   ("应付款项", ["应付账款", "应付票据", "应付款项合计"])]

/-- `ReconciliationRules.INCOME_STATEMENT_RULES` (data_validator.py,
lines 546-552). -/
def INCOME_STATEMENT_RULES : List (String × List String) :=
  [("营业收入", ["收入合计", "营业收入合计", "总收入"]),
   ("营业成本", ["成本合计", "营业成本合计", "总成本"]),
   ("净利润", ["本期利润", "净利润合计", "利润总额"]),
   ("投资收益", ["投资收益合计", "投资收益总额"]),
   ("公允价值变动收益", ["公允价值变动损益", "公允价值变动收益合计"])]

/-- Synonym lookup of `find_matching_items` (data_validator.py, lines
592-599): balance-sheet rules first, then income-statement rules, then
the item itself as its own sole alias. -/
def aliasesOf (mainItem : String) : List String :=
  if (BALANCE_SHEET_RULES.lookup mainItem).getD [] = [] then
    if (INCOME_STATEMENT_RULES.lookup mainItem).getD [] = [] then [mainItem]
    else (INCOME_STATEMENT_RULES.lookup mainItem).getD []
  else (BALANCE_SHEET_RULES.lookup mainItem).getD []

/-- The inner alias loop of `find_matching_items`: a candidate label
matches when some alias is contained in it or it is contained in some
alias (the loop breaks after the first alias that matches). -/
def matchesAnyAlias : List String → String → Bool
  | [], _ => false
  | a :: rest, n => if sContains n a || sContains a n then true else matchesAnyAlias rest n

/-- The outer candidate loop of `find_matching_items`: append each
matching candidate once, in order. -/
def filterMatching (syns : List String) : List String → List String
  | [] => []
  | n :: rest =>
    if matchesAnyAlias syns n then n :: filterMatching syns rest
    else filterMatching syns rest

/-- `ReconciliationRules.find_matching_items` (data_validator.py,
lines 578-608). -/
def findMatchingItems (mainItem : String) (noteItems : List String) : List String :=
  filterMatching (aliasesOf mainItem) noteItems

/-- One entry of the difference list built by
`DataValidator._reconcile_tables`. -/
structure ReconRecord where
  mainItem : String
  noteItem : String
  mainValue : ℚ
  noteValue : ℚ
  difference : ℚ
  differenceRate : ℚ
  severity : String
deriving DecidableEq

/-- The per-pair body of `_reconcile_tables` (data_validator.py, lines
405-425): extract both values; when both parse and their absolute
difference exceeds the tolerance, emit a record whose rate field is
`difference / main_value * 100` (0 for a zero main value). -/
def reconcilePair (tol : ℚ) (mainT noteT : List (List String))
    (mi ni : String) : Option ReconRecord :=
  match extractValue mainT mi, extractValue noteT ni with
  | some mv, some nv =>
    if |mv - nv| > tol then
      some { mainItem := mi, noteItem := ni, mainValue := mv, noteValue := nv,
             difference := |mv - nv|,
             differenceRate := if mv ≠ 0 then |mv - nv| / mv * 100 else 0,
             severity := assessSeverity (|mv - nv|) mv }
    else none
  | _, _ => none

/-- `DataValidator._reconcile_tables` (data_validator.py, lines
370-427): for each non-blank label of the main table's first column,
find the matching note labels and compare the extracted values
pairwise. -/
def reconcileTables (tol : ℚ) (mainT noteT : List (List String)) : List ReconRecord :=
  match mainT with
  | [] => []
  | _ =>
    let mainItems := mainT.map (fun row => row.headD "")
    let noteItems := noteT.map (fun row => row.headD "")
    mainItems.flatMap (fun mi =>
      if trimWs mi.data = [] then []
      else (findMatchingItems mi noteItems).filterMap (reconcilePair tol mainT noteT mi))

/-- One entry of the difference list built by
`DataValidator.validate_summation`. -/
structure SumRecord where
  totalItem : String
  subItems : List String
  reportedTotal : ℚ
  calculatedTotal : ℚ
  difference : ℚ
  differenceRate : ℚ
  severity : String
deriving DecidableEq

/-- `DataValidator.validate_summation` (data_validator.py, lines
132-179): for each rule, extract the total and the sub-item values
(unparsable sub-items are dropped from the sum); report a record only
when the total parsed, at least one sub-item parsed, and the absolute
difference exceeds the tolerance. -/
def validateSummation (tol : ℚ) (table : List (List String))
    (rules : List (String × List String)) : List SumRecord :=
  rules.filterMap (fun rule =>
    match extractValue table rule.1 with
    | some tv =>
      if rule.2.filterMap (extractValue table) ≠ [] then
        if |tv - (rule.2.filterMap (extractValue table)).sum| > tol then
          some { totalItem := rule.1, subItems := rule.2, reportedTotal := tv,
                 calculatedTotal := (rule.2.filterMap (extractValue table)).sum,
                 difference := |tv - (rule.2.filterMap (extractValue table)).sum|,
                 differenceRate :=
                   if tv ≠ 0 then
                     |tv - (rule.2.filterMap (extractValue table)).sum| / tv * 100
                   else 0,
                 severity :=
                   assessSeverity (|tv - (rule.2.filterMap (extractValue table)).sum|) tv }
        else none
      else none
    | none => none)

/-- A reconciliation rule as configured in
`FinancialReconciliation._init_reconciliation_rules`: required item
names plus an arithmetic check over the data dictionary (which reads
missing keys as 0, like the Python lambdas' `data.get(key, 0)`). -/
structure ReconRule where
  name : String
  formula : String
  items : List String
  check : (String → ℚ) → ℚ

/-- The result dictionary built by `_check_rule`. -/
structure RuleResult where
  name : String
  formula : String
  items : List String
  difference : ℚ
  is_pass : Bool

/-- `FinancialReconciliation._check_rule` (financial_reconciliation.py,
lines 400-443): if any required item is missing from the data the rule
is silently skipped (None); otherwise the rule's check is evaluated
and the pass flag is `difference <= tolerance`. -/
def checkRule (tol : ℚ) (rule : ReconRule) (data : List (String × ℚ)) : Option RuleResult :=
  let missing := rule.items.filter (fun i => (data.lookup i).isNone)
  if missing ≠ [] then none
  else
    let d := rule.check (fun k => (data.lookup k).getD 0)
    some { name := rule.name, formula := rule.formula, items := rule.items,
           difference := d, is_pass := decide (d ≤ tol) }

/-- The first rule of `balance_sheet_internal`
(financial_reconciliation.py, lines 34-39). -/
def assetBalanceRule : ReconRule :=
  { name := "资产负债平衡",
    formula := "资产总计 = 负债合计 + 净资产合计",
    items := ["资产总计", "负债合计", "净资产合计"],
    check := fun g => |g "资产总计" - (g "负债合计" + g "净资产合计")| }

/-- A table violating the summation rule, for the C7 witness. -/
def sumTableBad : List (List String) :=
  [["资产总计", "1000"], ["流动资产", "600"], ["非流动资产", "300"]]

/-- The summation rule of the C7 scenario, for the C7 witness. -/
def sumRulesC7 : List (String × List String) :=
  [("资产总计", ["流动资产", "非流动资产"])]

/-- Current report for the C1 witness: the prior-year column of its
balance sheet restates 资产总计 as 120. -/
def curReportW : Report :=
  ⟨[("资产负债表", ⟨["项目", "上年末"], [["资产总计", "120"]]⟩)]⟩

/-- Prior report for the C1 witness: its current-period column reports
资产总计 as 100. -/
def prevReportW : Report :=
  ⟨[("资产负债表", ⟨["项目", "期末"], [["资产总计", "100"]]⟩)]⟩

/-- Descending-similarity ordering on (corpus index, similarity)
pairs. -/
def simGE (a b : ℕ × ℚ) : Prop := b.2 ≤ a.2

instance : DecidableRel simGE := fun a b => inferInstanceAs (Decidable (b.2 ≤ a.2))

instance : IsTotal (ℕ × ℚ) simGE := ⟨fun a b => le_total b.2 a.2⟩

instance : IsTrans (ℕ × ℚ) simGE := ⟨fun _ _ _ h1 h2 => le_trans h2 h1⟩

/-- `CaseRetriever.search_cases` result shaping (product_design_ai/
case_retriever.py, lines 59-88): the TF-IDF cosine similarity of each
corpus case to the query is computed by the sklearn library and enters
here as a given score per corpus index; the function sorts descending
by similarity and keeps the first top_n rows.  No minimum-similarity
floor appears in the source. -/
def searchCases (sims : List ℚ) (topN : ℕ) : List (ℕ × ℚ) :=
  (List.insertionSort simGE sims.enum).take topN

/-- `_find_similar_cases` result shaping (valuation_ai/ai_analyzer.py,
lines 347-409): `argsort()[-top_n:][::-1]` keeps the top_n highest
similarities in descending order, and the subsequent loop keeps only
cases with similarity strictly above 0.05. -/
def findSimilarCases (sims : List ℚ) (topN : ℕ) : List (ℕ × ℚ) :=
  ((List.insertionSort simGE sims.enum).take topN).filter (fun x => decide (1/20 < x.2))

/-- One settlement trade row as consumed by duplicate detection:
account key, amount in pennies (missing/NaN read as 0), settlement
date as its ordinal (missing read as 0), and the security identifier
string. -/
structure Trade where
  account : String
  amount : Option ℚ
  settlementDate : Option ℤ
  security : String

/-- Feature vector of one trade (settlement_ai/ai_analyzer.py, lines
107-123): `[amount, date_ordinal, hash(security) % 10000]`.  Python's
string hash is salted per process (PYTHONHASHSEED), so it enters as the
parameter `h`; Python's `%` on a positive modulus agrees with `Int.emod`. -/
def featTriple (h : String → ℤ) (t : Trade) : ℚ × ℚ × ℚ :=
  (t.amount.getD 0, ((t.settlementDate.getD 0 : ℤ) : ℚ), ((h t.security % 10000 : ℤ) : ℚ))

/-- Mean of a list of rationals (0 for the empty list). -/
def qMean (xs : List ℚ) : ℚ := xs.sum / xs.length

/-- Population variance (ddof = 0), as computed by StandardScaler. -/
def qVar (xs : List ℚ) : ℚ := (xs.map (fun x => (x - qMean xs) ^ 2)).sum / xs.length

/-- StandardScaler replaces a zero scale (zero-variance column) by 1. -/
def scaleDenom (v : ℚ) : ℚ := if v = 0 then 1 else v

/-- Squared Euclidean distance between the standardized images of two
feature vectors: `((x - mu)/sigma - (y - mu)/sigma)^2 = (x - y)^2 / var`
summed per coordinate (exact in ℚ, avoiding the irrational sigma). -/
def sqDistScaled (fs : List (ℚ × ℚ × ℚ)) (x y : ℚ × ℚ × ℚ) : ℚ :=
  (x.1 - y.1) ^ 2 / scaleDenom (qVar (fs.map (fun f => f.1))) +
  (x.2.1 - y.2.1) ^ 2 / scaleDenom (qVar (fs.map (fun f => f.2.1))) +
  (x.2.2 - y.2.2) ^ 2 / scaleDenom (qVar (fs.map (fun f => f.2.2)))

/-- DBSCAN eps-neighborhood test (eps = 0.5, Euclidean metric):
distance ≤ eps iff squared distance ≤ 1/4. -/
def withinEps (fs : List (ℚ × ℚ × ℚ)) (i j : ℕ) : Bool :=
  decide (sqDistScaled fs (fs.getD i (0, 0, 0)) (fs.getD j (0, 0, 0)) ≤ 1/4)

/-- Size of the eps-neighborhood of point i, the point itself included
(sklearn counts the sample itself towards min_samples). -/
def neighborCount (fs : List (ℚ × ℚ × ℚ)) (i : ℕ) : ℕ :=
  ((List.range fs.length).filter (fun j => withinEps fs i j)).length

/-- Core point: at least min_samples = 2 points within eps. -/
def corePoint (fs : List (ℚ × ℚ × ℚ)) (i : ℕ) : Bool :=
  decide (2 ≤ neighborCount fs i)

/-- One DBSCAN expansion step: keep the current members and add every
point within eps of a core member. -/
def expandStep (fs : List (ℚ × ℚ × ℚ)) (s : List ℕ) : List ℕ :=
  (List.range fs.length).filter (fun j =>
    s.contains j || s.any (fun i => corePoint fs i && withinEps fs i j))

/-- Iterated expansion; `fs.length` steps reach the fixpoint. -/
def expandIter (fs : List (ℚ × ℚ × ℚ)) : ℕ → List ℕ → List ℕ
  | 0, s => s
  | n + 1, s => expandIter fs n (expandStep fs s)

/-- The DBSCAN cluster grown from point i.  With min_samples = 2 every
point within eps of a core point is itself core (it has that core
point and itself as neighbors), so clusters have no border points and
are exactly the sets reachable through eps-edges between core points. -/
def clusterOf (fs : List (ℚ × ℚ × ℚ)) (i : ℕ) : List ℕ :=
  expandIter fs fs.length [i]

/-- The clusters of DBSCAN(eps = 0.5, min_samples = 2) over the feature
list, each listed once (represented by its smallest member, which heads
the ascending member list); noise points belong to no cluster. -/
def dbscanClusters (fs : List (ℚ × ℚ × ℚ)) : List (List ℕ) :=
  (List.range fs.length).filterMap (fun i =>
    if corePoint fs i then
      if (clusterOf fs i).head? = some i ∧ 2 ≤ (clusterOf fs i).length then
        some (clusterOf fs i)
      else none
    else none)

/-- Order-preserving first-occurrence deduplication, tracking the keys
already seen (the order pandas `Series.unique` delivers account keys
in). -/
def ukfAux : List String → List String → List String
  | [], _ => []
  | a :: rest, seen =>
    if seen.contains a then ukfAux rest seen else a :: ukfAux rest (a :: seen)

/-- First-occurrence deduplication of the account column. -/
def uniqueKeepFirst (l : List String) : List String := ukfAux l []

/-- The row indices of one account's partition. -/
def partOf (trades : List Trade) (a : String) : List ℕ :=
  (List.range trades.length).filter
    (fun i => (trades.getD i ⟨"", none, none, ""⟩).account == a)

/-- The duplicate groups reported for one account partition
(ai_analyzer.py, lines 96-149): partitions with fewer than two records
are skipped; otherwise features are built, standardized and clustered,
and every cluster becomes an (account, original row indices) group. -/
def accountGroups (h : String → ℤ) (trades : List Trade) (a : String) :
    List (String × List ℕ) :=
  if (partOf trades a).length < 2 then []
  else
    (dbscanClusters ((partOf trades a).map
        (fun i => featTriple h (trades.getD i ⟨"", none, none, ""⟩)))).map
      (fun g => (a, g.map (fun j => (partOf trades a).getD j 0)))

/-- `SettlementAIAnalyzer.detect_duplicates` (settlement_ai/
ai_analyzer.py, lines 74-163), duplicate-group portion: group the
trades by account in first-appearance order and report the DBSCAN
duplicate groups of each partition. -/
def detectDuplicates (h : String → ℤ) (trades : List Trade) : List (String × List ℕ) :=
  (uniqueKeepFirst (trades.map (fun t => t.account))).flatMap (accountGroups h trades)

/-- Two same-account trades identical except for their securities, and
the per-process string-hash functions of two Python interpreter runs:
in the first both securities hash to the same residue, in the second
they do not. -/
def tradeX : Trade := ⟨"A", some 100, some 738000, "X"⟩

/-- Second trade for the C10 counterexample. -/
def tradeY : Trade := ⟨"A", some 100, some 738000, "Y"⟩

/-- A possible per-process salted string hash (process 1). -/
def hashP1 : String → ℤ := fun _ => 0

/-- Another possible per-process salted string hash (process 2). -/
def hashP2 : String → ℤ := fun s => if s = "X" then 0 else 1

/-- A third hash agreeing with hashP1 modulo 10000. -/
def hashP3 : String → ℤ := fun _ => 10000


/-- C4: For every non-negative difference d and base value b, the severity
classifier returns: when b ≠ 0, High iff |d/b| > 0.01 or d > 1000, else
Medium iff |d/b| > 0.001 or d > 100, else Low; and when b = 0, High if
d > 100 and Medium otherwise — a zero-base difference is never Low. -/
theorem C4_severity_classifier (d b : ℚ) (_hd : 0 ≤ d) :
    (b ≠ 0 →
      ((assessSeverity d b = "High" ↔ |d / b| > 1/100 ∨ d > 1000) ∧
       (assessSeverity d b = "Medium" ↔
          ¬(|d / b| > 1/100 ∨ d > 1000) ∧ (|d / b| > 1/1000 ∨ d > 100)) ∧
       (assessSeverity d b = "Low" ↔
          ¬(|d / b| > 1/100 ∨ d > 1000) ∧ ¬(|d / b| > 1/1000 ∨ d > 100)))) ∧
    (b = 0 →
      ((assessSeverity d b = "High" ↔ d > 100) ∧
       (assessSeverity d b = "Medium" ↔ ¬(d > 100)) ∧
       assessSeverity d b ≠ "Low")) := by
  constructor
  · intro hb
    unfold assessSeverity
    rw [if_neg hb]
    by_cases h1 : |d / b| > 1/100 ∨ d > 1000
    · rw [if_pos h1]
      exact ⟨iff_of_true rfl h1,
             iff_of_false (by decide) (fun hc => hc.1 h1),
             iff_of_false (by decide) (fun hc => hc.1 h1)⟩
    · rw [if_neg h1]
      by_cases h2 : |d / b| > 1/1000 ∨ d > 100
      · rw [if_pos h2]
        exact ⟨iff_of_false (by decide) (fun hc => h1 hc),
               iff_of_true rfl ⟨h1, h2⟩,
               iff_of_false (by decide) (fun hc => hc.2 h2)⟩
      · rw [if_neg h2]
        exact ⟨iff_of_false (by decide) (fun hc => h1 hc),
               iff_of_false (by decide) (fun hc => h2 hc.2),
               iff_of_true rfl ⟨h1, h2⟩⟩
  · intro hb
    unfold assessSeverity
    rw [if_pos hb]
    by_cases h1 : d > 100
    · rw [if_pos h1]
      exact ⟨iff_of_true rfl h1, iff_of_false (by decide) (fun hc => hc h1), by decide⟩
    · rw [if_neg h1]
      exact ⟨iff_of_false (by decide) h1, iff_of_true rfl h1, by decide⟩

/-- Witness for C4 at a concrete input. -/
theorem C4_severity_classifier_witness :
    (0 : ℚ) ≤ 50 ∧ assessSeverity 50 0 = "Medium" :=
  ⟨by norm_num,
   ((C4_severity_classifier 50 0 (by norm_num)).2 rfl).2.1.mpr (by norm_num)⟩

/-- C5: the value extractor strips thousands separators and whitespace,
reads parenthesized or leading-minus forms as negative
(extract "(1,234.50)" = -1234.50, extract "1,000" = 1000), maps the
empty string, "None", "nan" and "-" to null, and is a total function
into an optional value (every unparsable string yields null, no input
raises). -/
theorem C5_parse_number :
    parseNumber "(1,234.50)" = some (-(2469/2)) ∧
    parseNumber "1,000" = some 1000 ∧
    parseNumber "" = none ∧
    parseNumber "None" = none ∧
    parseNumber "nan" = none ∧
    parseNumber "-" = none ∧
    ∀ s : String, parseNumber s = none ∨ ∃ q : ℚ, parseNumber s = some q := by
  refine ⟨?_, ?_, ?_, ?_, ?_, ?_, ?_⟩
  · decide
  · decide
  · decide
  · decide
  · decide
  · decide
  · intro s
    cases h : parseNumber s with
    | none => exact Or.inl rfl
    | some q => exact Or.inr ⟨q, rfl⟩

/-- Counterexample to C3: in the table [["资产","-"],["资产","5"]] the first
row whose label contains "资产" is row 0, and none of its value cells is
parsable, yet `_extract_value` returns 5 (taken from the later matching
row 1), not null: the Python loop has no early return on an unparsable
first match and keeps scanning. -/
theorem C3_counterexample :
    sContains "资产" "资产" = true ∧
    rowParse ["资产", "-"] = none ∧
    extractValue [["资产", "-"], ["资产", "5"]] "资产" = some 5 := by
  refine ⟨?_, ?_, ?_⟩ <;> decide

/-- C3 (amended): `_extract_value` returns the value parsed from the first
row (scanning top-to-bottom) whose label contains the item and whose value
cells (columns 1..3) yield a parsable number; a matching row none of whose
cells parse is skipped and the scan continues with later rows. -/
theorem C3_first_parsable_match (rows : List (List String)) (item : String) :
    extractValue rows item = extractValueSpec rows item := by
  induction rows with
  | nil => rfl
  | cons row rest ih =>
    rw [extractValue, extractValueSpec, List.filter_cons]
    by_cases h : sContains (row.headD "") item
    · rw [if_pos h, if_pos h, List.findSome?_cons]
      cases hp : rowParse row with
      | none => exact ih
      | some v => rfl
    · rw [if_neg h, if_neg h]
      exact ih


/-- The candidate loop of `find_matching_items` is a filter by the
alias predicate. -/
lemma filterMatching_eq_filter (syns : List String) :
    ∀ ns : List String, filterMatching syns ns = ns.filter (matchesAnyAlias syns)
  | [] => rfl
  | n :: rest => by
    rw [filterMatching, List.filter_cons, filterMatching_eq_filter syns rest]

/-- The alias loop matches a label iff some alias matches it in either
containment direction. -/
lemma matchesAnyAlias_iff (n : String) :
    ∀ syns : List String, (matchesAnyAlias syns n = true ↔
      ∃ a ∈ syns, sContains n a = true ∨ sContains a n = true)
  | [] => by simp [matchesAnyAlias]
  | a :: rest => by
    rw [matchesAnyAlias]
    by_cases h : (sContains n a || sContains a n) = true
    · rw [if_pos h]
      refine iff_of_true rfl ?_
      have h' : sContains n a = true ∨ sContains a n = true := by simpa using h
      rcases h' with h1 | h2
      · exact ⟨a, List.mem_cons_self a rest, Or.inl h1⟩
      · exact ⟨a, List.mem_cons_self a rest, Or.inr h2⟩
    · rw [if_neg h, matchesAnyAlias_iff n rest]
      simp only [List.mem_cons]
      constructor
      · rintro ⟨x, hx, hc⟩
        exact ⟨x, Or.inr hx, hc⟩
      · rintro ⟨x, hx | hx, hc⟩
        · subst hx
          rcases hc with h1 | h2
          · exact absurd (by simp [h1]) h
          · exact absurd (by simp [h2]) h
        · exact ⟨x, hx, hc⟩

/-- C8: find_matching_items returns exactly the candidate labels L for
which some alias a of the item satisfies (a substring of L or L
substring of a); the alias set is the registered synonym list when one
exists (balance-sheet rules first, then income-statement rules) and
otherwise the item's own name; the result is a sublist of the
candidates (order preserved), and duplicate-free candidates yield each
matching label exactly once. -/
theorem C8_find_matching_items (item : String) (cands : List String) :
    findMatchingItems item cands = cands.filter (matchesAnyAlias (aliasesOf item)) ∧
    (∀ L : String, matchesAnyAlias (aliasesOf item) L = true ↔
       ∃ a ∈ aliasesOf item, sContains L a = true ∨ sContains a L = true) ∧
    (findMatchingItems item cands).Sublist cands ∧
    (cands.Nodup → (findMatchingItems item cands).Nodup) ∧
    ((BALANCE_SHEET_RULES.lookup item).getD [] = [] →
      (INCOME_STATEMENT_RULES.lookup item).getD [] = [] →
      aliasesOf item = [item]) ∧
    (∀ l : List String, BALANCE_SHEET_RULES.lookup item = some l → l ≠ [] →
      aliasesOf item = l) ∧
    (∀ l : List String, (BALANCE_SHEET_RULES.lookup item).getD [] = [] →
      INCOME_STATEMENT_RULES.lookup item = some l → l ≠ [] → aliasesOf item = l) := by
  have hfil : findMatchingItems item cands = cands.filter (matchesAnyAlias (aliasesOf item)) :=
    filterMatching_eq_filter _ cands
  refine ⟨hfil, fun L => matchesAnyAlias_iff L _, ?_, ?_, ?_, ?_, ?_⟩
  · rw [hfil]
    exact List.filter_sublist cands
  · intro hnd
    rw [hfil]
    exact hnd.filter _
  · intro h1 h2
    simp [aliasesOf, h1, h2]
  · intro l hB hl
    simp [aliasesOf, hB, hl]
  · intro l h1 hI hl
    simp [aliasesOf, h1, hI, hl]

/-- Witness for C8 at a concrete input. -/
theorem C8_find_matching_items_witness :
    (["资产合计", "其他"] : List String).Nodup ∧
    (findMatchingItems "资产总计" ["资产合计", "其他"]).Nodup ∧
    findMatchingItems "资产总计" ["资产合计", "其他"] = ["资产合计"] :=
  ⟨by decide,
   (C8_find_matching_items "资产总计" ["资产合计", "其他"]).2.2.2.1 (by decide),
   by decide⟩

/-- C6: rule evaluation returns null exactly when some required item
name is absent from the values mapping (the rule is silently skipped,
never an error), and otherwise returns a result whose pass flag equals
(difference ≤ tolerance), the difference being the rule's predicate
applied to the values. -/
theorem C6_check_rule (tol : ℚ) (rule : ReconRule) (data : List (String × ℚ)) :
    (checkRule tol rule data = none ↔ ∃ i ∈ rule.items, data.lookup i = none) ∧
    (∀ r : RuleResult, checkRule tol rule data = some r →
      r.difference = rule.check (fun k => (data.lookup k).getD 0) ∧
      (r.is_pass = true ↔ r.difference ≤ tol)) := by
  have hiff : (rule.items.filter (fun i => (data.lookup i).isNone) ≠ []) ↔
      ∃ i ∈ rule.items, data.lookup i = none := by
    rw [Ne, List.filter_eq_nil_iff]
    push_neg
    constructor
    · rintro ⟨i, hi, hp⟩
      exact ⟨i, hi, Option.isNone_iff_eq_none.mp (by simpa using hp)⟩
    · rintro ⟨i, hi, hp⟩
      exact ⟨i, hi, by simp [hp]⟩
  unfold checkRule
  by_cases hm : rule.items.filter (fun i => (data.lookup i).isNone) ≠ []
  · rw [if_pos hm]
    exact ⟨iff_of_true rfl (hiff.mp hm), fun r hr => absurd hr (by simp)⟩
  · rw [if_neg hm]
    refine ⟨iff_of_false (by simp) (fun hx => hm (hiff.mpr hx)), ?_⟩
    intro r hr
    injection hr with hr
    subst hr
    exact ⟨rfl, by simp⟩

/-- Witness for C6 at a concrete rule and data dictionary. -/
theorem C6_check_rule_witness :
    ∃ r : RuleResult,
      checkRule 1 assetBalanceRule
        [("资产总计", 100), ("负债合计", 60), ("净资产合计", 40)] = some r ∧
      (r.is_pass = true ↔ r.difference ≤ 1) := by
  cases hr : checkRule 1 assetBalanceRule
      [("资产总计", 100), ("负债合计", 60), ("净资产合计", 40)] with
  | none =>
    have hnone := (C6_check_rule 1 assetBalanceRule
      [("资产总计", 100), ("负债合计", 60), ("净资产合计", 40)]).1.mp hr
    exact absurd hnone (by decide)
  | some r =>
    exact ⟨r, rfl, ((C6_check_rule 1 assetBalanceRule
      [("资产总计", 100), ("负债合计", 60), ("净资产合计", 40)]).2 r hr).2⟩

/-- C7: on the concrete three-row table with the summation rule
{资产总计: [流动资产, 非流动资产]} and tolerance 2 the validator reports
zero discrepancies; and in general every emitted record's calculated
total is the sum of exactly the sub-items whose extraction is non-null
(nulls excluded, not zero), and a record is only emitted when
|reported - calculated| exceeds the tolerance. -/
theorem C7_validate_summation :
    validateSummation 2
      [["资产总计", "1000000", "900000"], ["流动资产", "600000", "500000"],
       ["非流动资产", "400000", "400000"]]
      [("资产总计", ["流动资产", "非流动资产"])] = [] ∧
    ∀ (tol : ℚ) (table : List (List String)) (rules : List (String × List String))
      (r : SumRecord), r ∈ validateSummation tol table rules →
      ∃ rule ∈ rules, r.totalItem = rule.1 ∧ r.subItems = rule.2 ∧
        extractValue table rule.1 = some r.reportedTotal ∧
        r.calculatedTotal = (rule.2.filterMap (extractValue table)).sum ∧
        r.difference = |r.reportedTotal - r.calculatedTotal| ∧
        r.difference > tol := by
  constructor
  · decide
  · intro tol table rules r hr
    rw [validateSummation, List.mem_filterMap] at hr
    obtain ⟨rule, hrule, hf⟩ := hr
    refine ⟨rule, hrule, ?_⟩
    split at hf
    next tv htv =>
      split at hf
      next hs =>
        split at hf
        next hd =>
          injection hf with hf
          subst hf
          exact ⟨rfl, rfl, htv, rfl, rfl, hd⟩
        next hd => exact absurd hf (by simp)
      next hs => exact absurd hf (by simp)
    next => exact absurd hf (by simp)

/-- Witness for C7's general part: a concrete emitted discrepancy. -/
theorem C7_validate_summation_witness :
    ∃ r : SumRecord, r ∈ validateSummation 2 sumTableBad sumRulesC7 ∧ r.difference > 2 := by
  cases hv : validateSummation 2 sumTableBad sumRulesC7 with
  | nil =>
    have hlen : (validateSummation 2 sumTableBad sumRulesC7).length = 1 := by
      decide
    rw [hv] at hlen
    exact absurd hlen (by decide)
  | cons r t =>
    have hmem : r ∈ validateSummation 2 sumTableBad sumRulesC7 := by
      rw [hv]
      exact List.mem_cons_self r t
    obtain ⟨rule, _, _, _, _, _, _, hgt⟩ := C7_validate_summation.2 2 sumTableBad sumRulesC7 r hmem
    exact ⟨r, List.mem_cons_self r t, hgt⟩


/-- `_reconcile_tables` written as one flatMap over the main-table
labels (the empty-main-table guard agrees with the general form). -/
lemma reconcileTables_eq (tol : ℚ) (mainT noteT : List (List String)) :
    reconcileTables tol mainT noteT =
      (mainT.map (fun row => row.headD "")).flatMap (fun mi =>
        if trimWs mi.data = [] then []
        else (findMatchingItems mi (noteT.map (fun row => row.headD ""))).filterMap
          (reconcilePair tol mainT noteT mi)) := by
  cases mainT with
  | nil => rfl
  | cons r t => rfl

/-- Counterexample to C2: for main table [["资产总计","200"]] and note
table [["资产合计","100"]] with tolerance 2, the emitted record has
difference 100, main value 200 and difference_rate 50 — the stored rate
is `difference / main_value * 100` (a percentage), not
`difference / main_value` (= 1/2) as the claim states. -/
theorem C2_counterexample :
    ((reconcileTables 2 [["资产总计", "200"]] [["资产合计", "100"]]).map
      (fun r => (r.mainValue, r.difference, r.differenceRate))) = [(200, 100, 50)] ∧
    (100 : ℚ) / 200 ≠ 50 := by
  constructor
  · decide
  · norm_num

/-- C2 (amended): for every matched item pair with both extractions
non-null, a record is emitted exactly when |main - note| > tolerance,
and the emitted record's difference_rate equals
difference / main_value * 100 (a percentage), with rate 0 when
main_value = 0. -/
theorem C2_reconcile_tables (tol : ℚ) (mainT noteT : List (List String)) :
    (∀ r : ReconRecord, r ∈ reconcileTables tol mainT noteT →
      extractValue mainT r.mainItem = some r.mainValue ∧
      extractValue noteT r.noteItem = some r.noteValue ∧
      r.difference = |r.mainValue - r.noteValue| ∧
      r.difference > tol ∧
      r.differenceRate = (if r.mainValue = 0 then 0 else r.difference / r.mainValue * 100) ∧
      r.severity = assessSeverity r.difference r.mainValue) ∧
    (∀ mi ∈ mainT.map (fun row => row.headD ""), trimWs mi.data ≠ [] →
      ∀ ni ∈ findMatchingItems mi (noteT.map (fun row => row.headD "")),
      ∀ mv nv : ℚ, extractValue mainT mi = some mv → extractValue noteT ni = some nv →
        |mv - nv| > tol →
        ∃ r ∈ reconcileTables tol mainT noteT,
          r.mainItem = mi ∧ r.noteItem = ni ∧ r.mainValue = mv ∧ r.noteValue = nv) := by
  constructor
  · intro r hr
    rw [reconcileTables_eq, List.mem_flatMap] at hr
    obtain ⟨mi, hmi, hr⟩ := hr
    by_cases hb : trimWs mi.data = []
    · rw [if_pos hb] at hr
      exact absurd hr (List.not_mem_nil r)
    · rw [if_neg hb, List.mem_filterMap] at hr
      obtain ⟨ni, hni, hp⟩ := hr
      unfold reconcilePair at hp
      cases hmv : extractValue mainT mi with
      | none =>
        simp only [hmv] at hp
        exact Option.noConfusion hp
      | some mv =>
        cases hnv : extractValue noteT ni with
        | none =>
          simp only [hmv, hnv] at hp
          exact Option.noConfusion hp
        | some nv =>
          simp only [hmv, hnv] at hp
          split at hp
          next hd =>
            injection hp with hp
            subst hp
            refine ⟨hmv, hnv, rfl, hd, ?_, rfl⟩
            by_cases hz : mv = 0
            · simp [hz]
            · simp [hz]
          next hd => exact absurd hp (by simp)
  · intro mi hmi hb ni hni mv nv hmv hnv hd
    refine ⟨{ mainItem := mi, noteItem := ni, mainValue := mv, noteValue := nv,
              difference := |mv - nv|,
              differenceRate := if mv ≠ 0 then |mv - nv| / mv * 100 else 0,
              severity := assessSeverity (|mv - nv|) mv }, ?_, rfl, rfl, rfl, rfl⟩
    rw [reconcileTables_eq, List.mem_flatMap]
    refine ⟨mi, hmi, ?_⟩
    rw [if_neg hb, List.mem_filterMap]
    refine ⟨ni, hni, ?_⟩
    unfold reconcilePair
    simp only [hmv, hnv]
    rw [if_pos hd]

/-- Witness for C2's general part at the concrete tables of the
counterexample. -/
theorem C2_reconcile_tables_witness :
    ∃ r ∈ reconcileTables 2 [["资产总计", "200"]] [["资产合计", "100"]],
      r.mainItem = "资产总计" ∧ r.noteItem = "资产合计" ∧
      r.mainValue = 200 ∧ r.noteValue = 100 := by
  refine (C2_reconcile_tables 2 [["资产总计", "200"]] [["资产合计", "100"]]).2
    "资产总计" ?_ ?_ "资产合计" ?_ 200 100 ?_ ?_ ?_
  · decide
  · decide
  · decide
  · decide
  · decide
  · decide


/-- Membership characterization of `validate_cross_year`'s output. -/
lemma mem_validateCrossYear (cur prev : Report) (r : CrossYearRecord) :
    ∀ items : List String, (r ∈ validateCrossYear cur prev items ↔
      ∃ item ∈ items, ∃ c p : ℚ,
        extractLastYearValue cur item = some c ∧
        extractCurrentYearValue prev item = some p ∧ c ≠ p ∧
        r = mkCrossYearRecord item c p)
  | [] => by simp [validateCrossYear]
  | item :: rest => by
    have ih := mem_validateCrossYear cur prev r rest
    have hsplit : (∃ it ∈ item :: rest, ∃ c p : ℚ,
        extractLastYearValue cur it = some c ∧
        extractCurrentYearValue prev it = some p ∧ c ≠ p ∧
        r = mkCrossYearRecord it c p) ↔
        ((∃ c p : ℚ, extractLastYearValue cur item = some c ∧
          extractCurrentYearValue prev item = some p ∧ c ≠ p ∧
          r = mkCrossYearRecord item c p) ∨
         (∃ it ∈ rest, ∃ c p : ℚ, extractLastYearValue cur it = some c ∧
          extractCurrentYearValue prev it = some p ∧ c ≠ p ∧
          r = mkCrossYearRecord it c p)) := by
      constructor
      · rintro ⟨it, hit, hrest⟩
        rcases List.mem_cons.mp hit with h | h
        · exact Or.inl (h ▸ hrest)
        · exact Or.inr ⟨it, h, hrest⟩
      · rintro (h | ⟨it, hit, hrest⟩)
        · exact ⟨item, List.mem_cons_self item rest, h⟩
        · exact ⟨it, List.mem_cons_of_mem item hit, hrest⟩
    rw [hsplit, validateCrossYear]
    cases hc : extractLastYearValue cur item with
    | none =>
      simp only [hc]
      rw [ih]
      constructor
      · exact fun h => Or.inr h
      · rintro (⟨c, p, hcc, -⟩ | h)
        · exact Option.noConfusion hcc
        · exact h
    | some c =>
      cases hp : extractCurrentYearValue prev item with
      | none =>
        simp only [hc, hp]
        rw [ih]
        constructor
        · exact fun h => Or.inr h
        · rintro (⟨c', p', -, hpp, -⟩ | h)
          · exact Option.noConfusion hpp
          · exact h
      | some p =>
        simp only [hc, hp]
        by_cases hcp : c ≠ p
        · rw [if_pos hcp, List.mem_cons, ih]
          constructor
          · rintro (h | h)
            · exact Or.inl ⟨c, p, rfl, rfl, hcp, h⟩
            · exact Or.inr h
          · rintro (⟨c', p', hc', hp', hne, hr⟩ | h)
            · injection hc' with hc'
              injection hp' with hp'
              rw [hr, ← hc', ← hp']
              exact Or.inl rfl
            · exact Or.inr h
        · rw [if_neg hcp, ih]
          constructor
          · exact fun h => Or.inr h
          · rintro (⟨c', p', hc', hp', hne, -⟩ | h)
            · injection hc' with hc'
              injection hp' with hp'
              exact absurd (fun hne' => hne (hc' ▸ hp' ▸ hne')) hcp
            · exact h

/-- At most one cross-year record is produced per occurrence of an
item name in the compared item list. -/
lemma countP_validateCrossYear (cur prev : Report) (x : String) :
    ∀ items : List String,
      (validateCrossYear cur prev items).countP (fun r => r.item == x) ≤
        items.count x
  | [] => Nat.le_refl 0
  | item :: rest => by
    have ih := countP_validateCrossYear cur prev x rest
    have hcount : (item :: rest).count x = rest.count x + if item == x then 1 else 0 :=
      List.count_cons x item rest
    rw [validateCrossYear, hcount]
    cases hc : extractLastYearValue cur item with
    | none => exact ih.trans (Nat.le_add_right _ _)
    | some c =>
      cases hp : extractCurrentYearValue prev item with
      | none => exact ih.trans (Nat.le_add_right _ _)
      | some p =>
        dsimp only
        by_cases hcp : c ≠ p
        · rw [if_pos hcp, List.countP_cons]
          exact Nat.add_le_add ih (by by_cases hx : item == x <;> simp [mkCrossYearRecord, hx])
        · rw [if_neg hcp]
          exact ih.trans (Nat.le_add_right _ _)

/-- Counterexample to C1: `validate_cross_year_consistency` applies its
tolerance to the cross-period comparison.  With the constructor's
default tolerance 0.01 and a nonzero cross-period difference of 1/200,
the emitted result is marked passing (consistent) — no discrepancy is
flagged and no severity is attached — contradicting "flags a
discrepancy exactly when the values differ by any nonzero amount (no
tolerance is applied)". -/
theorem C1_counterexample :
    ((validateCrossYearConsistency (1/100)
        [("上年度可比区间资产总计", 100)] [("期末资产总计", 100 + 1/200)]).map
      (fun res => (res.difference, res.is_pass))) = [(1/200, true)] ∧
    (1/200 : ℚ) ≠ 0 := by
  constructor
  · decide
  · norm_num

/-- C1 (amended): `DataValidator.validate_cross_year` flags a
discrepancy exactly when both extractions are non-null and differ by
any nonzero amount (exact comparison), every such record is High
severity, a null extraction produces no record, and at most one record
is produced per occurrence of an item; whereas
`FinancialReconciliation.validate_cross_year_consistency` emits one
result per item pair present in both data sets, whose pass flag is
`difference ≤ tolerance` (a tolerance IS applied there). -/
theorem C1_cross_year (cur prev : Report) (items : List String) :
    (∀ r : CrossYearRecord, r ∈ validateCrossYear cur prev items →
      r.severity = "High" ∧ r.item ∈ items ∧
      ∃ c p : ℚ, extractLastYearValue cur r.item = some c ∧
        extractCurrentYearValue prev r.item = some p ∧ c ≠ p ∧
        r.difference = |c - p| ∧ r.currentReportLastYear = c ∧ r.previousReport = p) ∧
    (∀ item ∈ items, ∀ c p : ℚ,
      extractLastYearValue cur item = some c →
      extractCurrentYearValue prev item = some p → c ≠ p →
      ∃ r ∈ validateCrossYear cur prev items, r.item = item) ∧
    (∀ x : String,
      (validateCrossYear cur prev items).countP (fun r => r.item == x) ≤ items.count x) ∧
    (∀ (tol : ℚ) (cdata pdata : List (String × ℚ)) (res : ConsistencyResult),
      res ∈ validateCrossYearConsistency tol cdata pdata →
      (res.is_pass = true ↔ res.difference ≤ tol) ∧
      res.difference = |res.currentYearComparable - res.previousYearCurrent|) := by
  refine ⟨?_, ?_, fun x => countP_validateCrossYear cur prev x items, ?_⟩
  · intro r hr
    obtain ⟨item, hitem, c, p, hc, hp, hne, hmk⟩ :=
      (mem_validateCrossYear cur prev r items).mp hr
    subst hmk
    exact ⟨rfl, hitem, c, p, hc, hp, hne, rfl, rfl, rfl⟩
  · intro item hitem c p hc hp hne
    exact ⟨mkCrossYearRecord item c p,
      (mem_validateCrossYear cur prev _ items).mpr ⟨item, hitem, c, p, hc, hp, hne, rfl⟩, rfl⟩
  · intro tol cdata pdata res hres
    rw [validateCrossYearConsistency, List.mem_filterMap] at hres
    obtain ⟨ckn, -, hf⟩ := hres
    cases h1 : cdata.lookup ckn.1 with
    | none =>
      simp only [h1] at hf
      exact Option.noConfusion hf
    | some c =>
      cases h2 : pdata.lookup ckn.2.1 with
      | none =>
        simp only [h1, h2] at hf
        exact Option.noConfusion hf
      | some p =>
        simp only [h1, h2] at hf
        injection hf with hf
        subst hf
        exact ⟨by simp, rfl⟩

/-- Witness for C1 at concrete reports with a restated comparative. -/
theorem C1_cross_year_witness :
    ∃ r ∈ validateCrossYear curReportW prevReportW ["资产总计"], r.item = "资产总计" := by
  refine (C1_cross_year curReportW prevReportW ["资产总计"]).2.1 "资产总计" ?_ 120 100 ?_ ?_ ?_
  · exact List.mem_cons_self _ _
  · decide
  · decide
  · norm_num


/-- Counterexample to C9: `search_cases` applies no minimum-similarity
floor.  On a one-case corpus whose similarity to the query is 0 (at or
below the claimed ~0.05 floor) and top_n = 5, the case is returned
anyway. -/
theorem C9_counterexample :
    searchCases [0] 5 = [(0, 0)] ∧ (0 : ℚ) ≤ 1/20 := by
  constructor
  · decide
  · norm_num

/-- C9 (amended): both retrieval routines return results sorted by
descending similarity and truncated to top_n; only the valuation
module's `_find_similar_cases` applies the 0.05 floor (after the
truncation, which selects the same set), so an item with similarity at
or below 0.05 is never returned by it; `search_cases` applies no floor. -/
theorem C9_similarity_search (sims : List ℚ) (topN : ℕ) :
    (searchCases sims topN).Sorted simGE ∧
    (searchCases sims topN).length ≤ topN ∧
    (findSimilarCases sims topN).Sorted simGE ∧
    (findSimilarCases sims topN).length ≤ topN ∧
    (∀ x ∈ findSimilarCases sims topN, 1/20 < x.2) := by
  have hsorted : (List.insertionSort simGE sims.enum).Sorted simGE :=
    List.sorted_insertionSort simGE sims.enum
  have htake : (searchCases sims topN).Sorted simGE :=
    hsorted.sublist (List.take_sublist topN _)
  refine ⟨htake, ?_, ?_, ?_, ?_⟩
  · exact List.length_take_le topN _
  · exact htake.sublist (List.filter_sublist _)
  · exact le_trans (List.length_filter_le _ _) (List.length_take_le topN _)
  · intro x hx
    have hx2 := (List.mem_filter.mp hx).2
    exact of_decide_eq_true hx2

/-- Witness for C9's floor property at a concrete corpus. -/
theorem C9_similarity_search_witness :
    (0, (1 : ℚ)) ∈ findSimilarCases [1] 1 ∧ (1/20 : ℚ) < 1 := by
  have hmem : (0, (1 : ℚ)) ∈ findSimilarCases [1] 1 := by
    decide
  exact ⟨hmem, (C9_similarity_search [1] 1).2.2.2.2 (0, 1) hmem⟩

/-- Counterexample to C10: on the same two-trade input, the process
whose salted hash collides the two securities modulo 10000 reports one
duplicate group, while a process whose hash separates them reports
none (the separated standardized feature vectors are 2 > eps apart):
detect_duplicates is NOT invariant across processes/runs, because the
feature vector includes the salted `hash(security) % 10000`. -/
theorem C10_counterexample :
    detectDuplicates hashP1 [tradeX, tradeY] = [("A", [0, 1])] ∧
    detectDuplicates hashP2 [tradeX, tradeY] = [] := by
  constructor
  · decide
  · decide

/-- C10 (amended): within one process — i.e. for a fixed string-hash
function — detect_duplicates is a pure function of its input, and its
output depends on the hash only through `hash(security) % 10000`: two
hash functions agreeing modulo 10000 on the input's securities yield
identical duplicate groups.  Cross-process determinism fails (see the
counterexample) precisely because the salt changes these residues. -/
theorem C10_detect_duplicates (h1 h2 : String → ℤ) (trades : List Trade)
    (hagree : ∀ t ∈ trades, h1 t.security % 10000 = h2 t.security % 10000) :
    detectDuplicates h1 trades = detectDuplicates h2 trades := by
  have hfun : accountGroups h1 trades = accountGroups h2 trades := by
    funext a
    unfold accountGroups
    by_cases hlen : (partOf trades a).length < 2
    · rw [if_pos hlen, if_pos hlen]
    · rw [if_neg hlen, if_neg hlen]
      have hmap : (partOf trades a).map
            (fun i => featTriple h1 (trades.getD i ⟨"", none, none, ""⟩)) =
          (partOf trades a).map
            (fun i => featTriple h2 (trades.getD i ⟨"", none, none, ""⟩)) := by
        apply List.map_congr_left
        intro i hi
        have hrange : i ∈ List.range trades.length := (List.mem_filter.mp hi).1
        have hilt : i < trades.length := List.mem_range.mp hrange
        have hmem : trades.getD i ⟨"", none, none, ""⟩ ∈ trades := by
          rw [List.getD_eq_getElem?_getD, List.getElem?_eq_getElem hilt]
          exact List.getElem_mem hilt
        unfold featTriple
        rw [hagree _ hmem]
      rw [hmap]
  unfold detectDuplicates
  rw [hfun]

/-- Witness for C10's congruence at concrete hash functions agreeing
modulo 10000. -/
theorem C10_detect_duplicates_witness :
    detectDuplicates hashP1 [tradeX, tradeY] = detectDuplicates hashP3 [tradeX, tradeY] :=
  C10_detect_duplicates hashP1 hashP3 [tradeX, tradeY] (by decide)

end YFD
